import Mathlib

/-!
# Pagination of the dashboard table (`web/static/js/main.js`)

A shallow embedding of `renderTable` and `renderPagination`.

* `tableData` is a JavaScript array; it is a `List α` here, its `length` a natural number.
* `currentPage`, `startPage`, `endPage` and `totalPages` are JavaScript numbers that only ever
  hold integers; they are `Int` here.  `tableData.length / rowsPerPage` is the exact quotient
  (a rational); for array lengths (below `2 ^ 32`) the IEEE double quotient followed by
  `Math.ceil` gives the same integer, because a non-integral quotient `n / 5` is at distance at
  least `1 / 5` from every integer.
* The DOM list built by `insertAdjacentHTML` is the list of its `<li>` items; each item keeps the
  `textContent` of its `.page-link` child and the `disabled` / `active` classes of the `<li>`.
* The global `currentPage` is threaded explicitly through the click handler.
-/

namespace Pagination

/-! ## Constants and state -/

/-- Line 1: `const rowsPerPage = 5;`. -/
def rowsPerPage : Nat := 5

/-- Line 2: `let currentPage = 1;`, the value the global starts with. -/
def initialPage : Int := 1

/-- Line 34: `const pageLimit = 10;`. -/
def pageLimit : Int := 10

/-! ## `renderTable` -/

/-- The index `Array.prototype.slice` derives from an integral argument: a negative argument
counts from the end of the array, and the result is clamped into `[0, len]`. -/
def sliceIndex (len : Nat) (i : Int) : Nat :=
  if i < 0 then (max ((len : Int) + i) 0).toNat else (min i (len : Int)).toNat

/-- The JavaScript `xs.slice(start, stop)` for integral `start` and `stop`. -/
def slice {α : Type} (xs : List α) (start stop : Int) : List α :=
  let k := sliceIndex xs.length start
  let final := sliceIndex xs.length stop
  (xs.drop k).take (final - k)

/-- Lines 5-7 of `renderTable(page)`: the rows shown on page `page`. -/
def pageData {α : Type} (tableData : List α) (page : Int) : List α :=
  let start := (page - 1) * (rowsPerPage : Int)
  let stop := start + (rowsPerPage : Int)
  slice tableData start stop

/-! ## `renderPagination`: the window -/

/-- Line 30: `Math.ceil(tableData.length / rowsPerPage)`. -/
def totalPages {α : Type} (tableData : List α) : Int :=
  ⌈((tableData.length : ℚ)) / (rowsPerPage : ℚ)⌉

/-- Line 35: the first value of `startPage`, `Math.max(1, currentPage - Math.floor(pageLimit / 2))`. -/
def firstStart (currentPage : Int) : Int :=
  max 1 (currentPage - pageLimit / 2)

/-- Line 36: the first value of `endPage`, `startPage + pageLimit - 1`. -/
def firstEnd (currentPage : Int) : Int :=
  firstStart currentPage + pageLimit - 1

/-- Line 37: the test `endPage > totalPages` that guards the re-derivation of the window. -/
def clamped {α : Type} (tableData : List α) (currentPage : Int) : Bool :=
  decide (firstEnd currentPage > totalPages tableData)

/-- The values of `startPage` and `endPage` after line 40. -/
structure PageWindow where
  startPage : Int
  endPage : Int
  deriving DecidableEq, Repr

/-- Lines 35-40 of `renderPagination`. -/
def pageWindow {α : Type} (tableData : List α) (currentPage : Int) : PageWindow :=
  if clamped tableData currentPage then
    { startPage := max 1 (totalPages tableData - pageLimit + 1)
      endPage := totalPages tableData }
  else
    { startPage := firstStart currentPage
      endPage := firstEnd currentPage }

/-! ## `renderPagination`: the rendered controls -/

/-- The `textContent` of a `.page-link` element. -/
inductive Label where
  | laquo
  | raquo
  | dots
  | num (n : Int)
  deriving DecidableEq, Repr

/-- One `<li class="page-item ...">` of the pagination list. -/
structure PageItem where
  text : Label
  disabled : Bool
  active : Bool
  deriving DecidableEq, Repr

/-- The values `i` of the loop `for (let i = startPage; i <= endPage; i++)`, in order. -/
def pageNumbers (startPage endPage : Int) : List Int :=
  (List.range (endPage - startPage + 1).toNat).map (fun (k : Nat) => startPage + (k : Int))

/-- Lines 48-53: the first-page button and the leading ellipsis. -/
def leadingItems (w : PageWindow) : List PageItem :=
  if w.startPage > 1 then
    [{ text := Label.num 1, disabled := false, active := false },
     { text := Label.dots, disabled := true, active := false }]
  else []

/-- Lines 55-61: the number buttons of the window. -/
def numberItems (w : PageWindow) (currentPage : Int) : List PageItem :=
  (pageNumbers w.startPage w.endPage).map
    (fun i => { text := Label.num i, disabled := false, active := decide (i = currentPage) })

/-- Lines 63-68: the trailing ellipsis and the last-page button. -/
def trailingItems (w : PageWindow) (total : Int) : List PageItem :=
  if w.endPage < total then
    [{ text := Label.dots, disabled := true, active := false },
     { text := Label.num total, disabled := false, active := false }]
  else []

/-- Lines 42-74 of `renderPagination`: the items appended to the pagination list, in order. -/
def renderPagination {α : Type} (tableData : List α) (currentPage : Int) : List PageItem :=
  let total := totalPages tableData
  let w := pageWindow tableData currentPage
  [{ text := Label.laquo, disabled := decide (currentPage = 1), active := false }]
    ++ leadingItems w
    ++ numberItems w currentPage
    ++ trailingItems w total
    ++ [{ text := Label.raquo, disabled := decide (currentPage = total), active := false }]

/-! ## The click handler -/

/-- The JavaScript `Number(text)` on a label: `none` stands for `NaN`. -/
def Label.toNumber : Label → Option Int
  | Label.num n => some n
  | _ => none

/-- Lines 79-82: the new value of `currentPage` after a click on an element with this text. -/
def click (total currentPage : Int) (text : Label) : Int :=
  if text = Label.laquo ∧ currentPage > 1 then currentPage - 1
  else if text = Label.raquo ∧ currentPage < total then currentPage + 1
  else
    match text.toNumber with
    | some v => v
    | none => currentPage

/-- A click on the `idx`-th element of `pagination.querySelectorAll(".page-link")`; an index
past the rendered controls is no click at all. -/
def clickAt {α : Type} (tableData : List α) (currentPage : Int) (idx : Nat) : Int :=
  match (renderPagination tableData currentPage).get? idx with
  | some item => click (totalPages tableData) currentPage item.text
  | none => currentPage

/-- The value of `currentPage` after a sequence of clicks, from the initial render. -/
def run {α : Type} (tableData : List α) (clicks : List Nat) : Int :=
  clicks.foldl (clickAt tableData) initialPage

/-! ## Observations on the rendered list -/

/-- Whether the rendering holds the ellipsis span in front of the window (line 51). -/
def showsLeadingEllipsis {α : Type} (tableData : List α) (currentPage : Int) : Bool :=
  (leadingItems (pageWindow tableData currentPage)).any (fun item => item.text = Label.dots)

/-- Whether the rendering holds the ellipsis span behind the window (line 65). -/
def showsTrailingEllipsis {α : Type} (tableData : List α) (currentPage : Int) : Bool :=
  (trailingItems (pageWindow tableData currentPage) (totalPages tableData)).any
    (fun item => item.text = Label.dots)

/-- The slices `renderTable` takes for the pages `1, 2, ..., totalPages`, in that order. -/
def pages {α : Type} (tableData : List α) : List (List α) :=
  (List.range (totalPages tableData).toNat).map (fun (i : Nat) => pageData tableData ((i : Int) + 1))

/-- The range the page state is meant to stay in: `[1, ceil(totalItems / pageSize)]`, or exactly
`1` when the dataset is empty. -/
def InRange {α : Type} (tableData : List α) (currentPage : Int) : Prop :=
  if tableData.length = 0 then currentPage = 1
  else 1 ≤ currentPage ∧ currentPage ≤ ⌈((tableData.length : ℚ)) / (rowsPerPage : ℚ)⌉

instance {α : Type} (tableData : List α) (currentPage : Int) :
    Decidable (InRange tableData currentPage) := by
  unfold InRange
  infer_instance

/-! ## The page count with the page size as an argument

`rowsPerPage` is a constant of the source.  Line 30 is read here once more with the page size as
an argument, to state what it computes for every positive page size.  A division by zero is then
possible, so the page count is a JavaScript number that may be `Infinity` or `NaN`. -/

/-- The value of `Math.ceil(n / d)` for an array length `n` and an integer `d`: an integer,
`Infinity` (`n > 0`, `d = 0`) or `NaN` (`n = 0`, `d = 0`). -/
inductive PageCount where
  | finite (n : Int)
  | infinity
  | nan
  deriving DecidableEq, Repr

/-- Line 30 with the page size as an argument: `Math.ceil(tableData.length / pageSize)`. -/
def totalPagesWith {α : Type} (pageSize : Int) (tableData : List α) : PageCount :=
  if pageSize = 0 then
    if tableData.length = 0 then PageCount.nan else PageCount.infinity
  else PageCount.finite ⌈((tableData.length : ℚ)) / (pageSize : ℚ)⌉

/-! ## Arithmetic of the page count and of the window -/

theorem totalPages_eq_natDiv {α : Type} (tableData : List α) :
    totalPages tableData = (((tableData.length + 4) / 5 : Nat) : Int) := by
  unfold totalPages rowsPerPage
  have h1 : tableData.length ≤ 5 * ((tableData.length + 4) / 5) := by omega
  have h2 : 5 * ((tableData.length + 4) / 5) < tableData.length + 5 := by omega
  generalize (tableData.length + 4) / 5 = m at h1 h2
  generalize tableData.length = n at h1 h2
  have h1q : (n : ℚ) ≤ 5 * (m : ℚ) := by exact_mod_cast h1
  have h2q : 5 * (m : ℚ) < (n : ℚ) + 5 := by exact_mod_cast h2
  rw [Int.ceil_eq_iff]
  constructor
  · rw [lt_div_iff₀ (by norm_num)]
    push_cast
    linarith
  · rw [div_le_iff₀ (by norm_num)]
    push_cast
    linarith

theorem totalPages_nonneg {α : Type} (tableData : List α) : 0 ≤ totalPages tableData := by
  rw [totalPages_eq_natDiv]
  exact Int.ofNat_nonneg _

theorem totalPages_nil {α : Type} : totalPages ([] : List α) = 0 := by
  rw [totalPages_eq_natDiv]
  simp

theorem totalPages_replicate (n : Nat) :
    totalPages (List.replicate n ()) = (((n + 4) / 5 : Nat) : Int) := by
  rw [totalPages_eq_natDiv, List.length_replicate]

theorem firstStart_eq (currentPage : Int) : firstStart currentPage = max 1 (currentPage - 5) := by
  unfold firstStart pageLimit
  norm_num

theorem firstEnd_eq (currentPage : Int) : firstEnd currentPage = max 1 (currentPage - 5) + 9 := by
  unfold firstEnd
  rw [firstStart_eq]
  unfold pageLimit
  omega

theorem pageWindow_clamped {α : Type} (tableData : List α) (currentPage : Int)
    (h : totalPages tableData < max 1 (currentPage - 5) + 9) :
    pageWindow tableData currentPage =
      { startPage := max 1 (totalPages tableData - 9), endPage := totalPages tableData } := by
  have hc : clamped tableData currentPage = true := by
    unfold clamped
    rw [firstEnd_eq]
    exact decide_eq_true h
  unfold pageWindow
  rw [if_pos hc]
  unfold pageLimit
  congr 1
  omega

theorem pageWindow_free {α : Type} (tableData : List α) (currentPage : Int)
    (h : max 1 (currentPage - 5) + 9 ≤ totalPages tableData) :
    pageWindow tableData currentPage =
      { startPage := max 1 (currentPage - 5), endPage := max 1 (currentPage - 5) + 9 } := by
  have hc : clamped tableData currentPage = false := by
    unfold clamped
    rw [firstEnd_eq]
    exact decide_eq_false (by omega)
  unfold pageWindow
  rw [hc, firstStart_eq, firstEnd_eq]
  rfl

theorem pageWindow_cases {α : Type} (tableData : List α) (currentPage : Int) :
    (totalPages tableData < max 1 (currentPage - 5) + 9 ∧
        pageWindow tableData currentPage =
          { startPage := max 1 (totalPages tableData - 9), endPage := totalPages tableData }) ∨
      (max 1 (currentPage - 5) + 9 ≤ totalPages tableData ∧
        pageWindow tableData currentPage =
          { startPage := max 1 (currentPage - 5), endPage := max 1 (currentPage - 5) + 9 }) := by
  by_cases h : totalPages tableData < max 1 (currentPage - 5) + 9
  · exact Or.inl ⟨h, pageWindow_clamped tableData currentPage h⟩
  · exact Or.inr ⟨by omega, pageWindow_free tableData currentPage (by omega)⟩

/-! ## The loop over the window -/

theorem length_pageNumbers (startPage endPage : Int) :
    (pageNumbers startPage endPage).length = (endPage - startPage + 1).toNat := by
  simp [pageNumbers]

theorem mem_pageNumbers (startPage endPage i : Int) :
    i ∈ pageNumbers startPage endPage ↔ startPage ≤ i ∧ i ≤ endPage := by
  unfold pageNumbers
  rw [List.mem_map]
  constructor
  · rintro ⟨k, hk, rfl⟩
    rw [List.mem_range] at hk
    omega
  · rintro ⟨h1, h2⟩
    refine ⟨(i - startPage).toNat, ?_, ?_⟩
    · rw [List.mem_range]
      omega
    · omega

theorem nodup_pageNumbers (startPage endPage : Int) : (pageNumbers startPage endPage).Nodup := by
  unfold pageNumbers
  apply List.Nodup.map
  · intro a b hab
    simp only at hab
    omega
  · exact List.nodup_range _

theorem length_numberItems (w : PageWindow) (currentPage : Int) :
    (numberItems w currentPage).length = (w.endPage - w.startPage + 1).toNat := by
  simp [numberItems, length_pageNumbers]

theorem filter_active_numberItems (w : PageWindow) (currentPage : Int) :
    ((numberItems w currentPage).filter (fun item => item.active)).length =
      (pageNumbers w.startPage w.endPage).count currentPage := by
  unfold numberItems
  rw [List.filter_map, List.length_map, List.count, ← List.countP_eq_length_filter]
  apply List.countP_congr
  intro i _
  simp

theorem showsLeadingEllipsis_iff {α : Type} (tableData : List α) (currentPage : Int) :
    showsLeadingEllipsis tableData currentPage = true ↔
      1 < (pageWindow tableData currentPage).startPage := by
  unfold showsLeadingEllipsis leadingItems
  by_cases h : (pageWindow tableData currentPage).startPage > 1
  · simp [h]
  · simp [h]

theorem showsTrailingEllipsis_iff {α : Type} (tableData : List α) (currentPage : Int) :
    showsTrailingEllipsis tableData currentPage = true ↔
      (pageWindow tableData currentPage).endPage < totalPages tableData := by
  unfold showsTrailingEllipsis trailingItems
  by_cases h : (pageWindow tableData currentPage).endPage < totalPages tableData
  · simp [h]
  · simp [h]

theorem texts_renderPagination {α : Type} (tableData : List α) (currentPage : Int) :
    (renderPagination tableData currentPage).map (fun item => item.text)
      = [Label.laquo]
          ++ (if 2 ≤ (pageWindow tableData currentPage).startPage
                then [Label.num 1, Label.dots] else [])
          ++ (pageNumbers (pageWindow tableData currentPage).startPage
                (pageWindow tableData currentPage).endPage).map Label.num
          ++ (if (pageWindow tableData currentPage).endPage ≤ totalPages tableData - 1
                then [Label.dots, Label.num (totalPages tableData)] else [])
          ++ [Label.raquo] := by
  unfold renderPagination leadingItems trailingItems numberItems
  by_cases h1 : (pageWindow tableData currentPage).startPage > 1 <;>
    by_cases h2 : (pageWindow tableData currentPage).endPage < totalPages tableData
  · have h1b : 2 ≤ (pageWindow tableData currentPage).startPage := by omega
    have h2b : (pageWindow tableData currentPage).endPage ≤ totalPages tableData - 1 := by omega
    simp [h1, h2, h1b, h2b]
  · have h1b : 2 ≤ (pageWindow tableData currentPage).startPage := by omega
    have h2b : ¬ (pageWindow tableData currentPage).endPage ≤ totalPages tableData - 1 := by
      omega
    simp [h1, h2, h1b, h2b]
  · have h1b : ¬ 2 ≤ (pageWindow tableData currentPage).startPage := by omega
    have h2b : (pageWindow tableData currentPage).endPage ≤ totalPages tableData - 1 := by omega
    simp [h1, h2, h1b, h2b]
  · have h1b : ¬ 2 ≤ (pageWindow tableData currentPage).startPage := by omega
    have h2b : ¬ (pageWindow tableData currentPage).endPage ≤ totalPages tableData - 1 := by
      omega
    simp [h1, h2, h1b, h2b]

theorem count_dots_renderPagination {α : Type} (tableData : List α) (currentPage : Int) :
    ((renderPagination tableData currentPage).filter
        (fun item => decide (item.text = Label.dots))).length
      = (if 2 ≤ (pageWindow tableData currentPage).startPage then 1 else 0)
          + (if (pageWindow tableData currentPage).endPage ≤ totalPages tableData - 1
              then 1 else 0) := by
  have hn : ∀ (w : PageWindow) (c : Int),
      (numberItems w c).filter (fun item => decide (item.text = Label.dots)) = [] := by
    intro w c
    rw [List.filter_eq_nil_iff]
    intro item hi
    unfold numberItems at hi
    rw [List.mem_map] at hi
    obtain ⟨i, _, rfl⟩ := hi
    simp
  unfold renderPagination
  simp only [List.filter_append, List.length_append, hn]
  unfold leadingItems trailingItems
  by_cases h1 : (pageWindow tableData currentPage).startPage > 1 <;>
    by_cases h2 : (pageWindow tableData currentPage).endPage < totalPages tableData
  · have h1b : 2 ≤ (pageWindow tableData currentPage).startPage := by omega
    have h2b : (pageWindow tableData currentPage).endPage ≤ totalPages tableData - 1 := by omega
    simp [h1, h2, h1b, h2b]
  · have h1b : 2 ≤ (pageWindow tableData currentPage).startPage := by omega
    have h2b : ¬ (pageWindow tableData currentPage).endPage ≤ totalPages tableData - 1 := by
      omega
    simp [h1, h2, h1b, h2b]
  · have h1b : ¬ 2 ≤ (pageWindow tableData currentPage).startPage := by omega
    have h2b : (pageWindow tableData currentPage).endPage ≤ totalPages tableData - 1 := by omega
    simp [h1, h2, h1b, h2b]
  · have h1b : ¬ 2 ≤ (pageWindow tableData currentPage).startPage := by omega
    have h2b : ¬ (pageWindow tableData currentPage).endPage ≤ totalPages tableData - 1 := by
      omega
    simp [h1, h2, h1b, h2b]

/-! ## The window: width, position, ellipses -/

/-- C1: for every dataset and every `currentPage` in `[1, totalPages]`, the window that
`renderPagination` ends with has width `endPage - startPage + 1 = min pageLimit totalPages`, and
that many number buttons are rendered. -/
theorem window_width {α : Type} (tableData : List α) (currentPage : Int)
    (h1 : 1 ≤ currentPage) (h2 : currentPage ≤ totalPages tableData) :
    (pageWindow tableData currentPage).endPage - (pageWindow tableData currentPage).startPage + 1
        = min pageLimit (totalPages tableData) ∧
      ((numberItems (pageWindow tableData currentPage) currentPage).length : Int)
        = min pageLimit (totalPages tableData) := by
  rw [length_numberItems]
  by_cases h : totalPages tableData < max 1 (currentPage - 5) + 9
  · rw [pageWindow_clamped tableData currentPage h]
    unfold pageLimit
    simp only
    omega
  · rw [pageWindow_free tableData currentPage (by omega)]
    unfold pageLimit
    simp only
    omega

theorem window_width_witness :
    (1 : Int) ≤ 20 ∧ (20 : Int) ≤ totalPages (List.replicate 200 ()) ∧
      (pageWindow (List.replicate 200 ()) 20).endPage
          - (pageWindow (List.replicate 200 ()) 20).startPage + 1
        = min pageLimit (totalPages (List.replicate 200 ())) :=
  have h2 : (20 : Int) ≤ totalPages (List.replicate 200 ()) := by
    rw [totalPages_replicate]
    decide
  ⟨by decide, h2, (window_width (List.replicate 200 ()) 20 (by decide) h2).1⟩

/-- C2, as the code has it: for every page size `pageSize > 0`, and so for `rowsPerPage = 5`,
`totalPages` is the ceiling of `tableData.length / pageSize`, which is `0` for an empty dataset and
`max 1` of the ceiling for every other one. -/
theorem totalPages_spec {α : Type} (pageSize : Int) (hp : 0 < pageSize) (tableData : List α) :
    totalPagesWith pageSize tableData =
        PageCount.finite
          (if tableData.length = 0 then 0
            else max 1 ⌈((tableData.length : ℚ)) / (pageSize : ℚ)⌉) ∧
      totalPages tableData =
        if tableData.length = 0 then 0
        else max 1 ⌈((tableData.length : ℚ)) / (rowsPerPage : ℚ)⌉ := by
  constructor
  · unfold totalPagesWith
    rw [if_neg (by omega)]
    congr 1
    by_cases h : tableData.length = 0
    · rw [if_pos h, h]
      simp
    · rw [if_neg h]
      have hq : (0 : ℚ) < (pageSize : ℚ) := by exact_mod_cast hp
      have hn : (0 : ℚ) < (tableData.length : ℚ) := by exact_mod_cast Nat.pos_of_ne_zero h
      have hpos : 0 < ⌈((tableData.length : ℚ)) / (pageSize : ℚ)⌉ :=
        Int.ceil_pos.2 (div_pos hn hq)
      omega
  · have hc : ⌈((tableData.length : ℚ)) / (rowsPerPage : ℚ)⌉ = totalPages tableData := rfl
    rw [hc]
    by_cases h : tableData.length = 0
    · rw [if_pos h, totalPages_eq_natDiv, h]
      rfl
    · rw [if_neg h, totalPages_eq_natDiv]
      omega

theorem totalPages_spec_witness :
    (0 : Int) < 5 ∧
      totalPagesWith 5 [(), (), (), (), (), ()] = PageCount.finite 2 ∧
      totalPages [(), (), (), (), (), ()] = 2 := by
  have h := totalPages_spec 5 (by decide) [(), (), (), (), (), ()]
  have e5 : ⌈((([(), (), (), (), (), ()] : List Unit).length : ℚ)) / (((5 : Int)) : ℚ)⌉ = 2 := by
    rw [Int.ceil_eq_iff]
    norm_num
  have er : ⌈((([(), (), (), (), (), ()] : List Unit).length : ℚ)) / (rowsPerPage : ℚ)⌉ = 2 := by
    rw [Int.ceil_eq_iff]
    unfold rowsPerPage
    norm_num
  rw [e5, er] at h
  exact ⟨by decide, h.1, h.2⟩

/-- C2 fails on the empty dataset: the code computes `0` pages, `max 1 (ceil (0 / 5))` is `1`. -/
theorem totalPages_empty_ne_max :
    totalPages ([] : List Unit) = 0 ∧
      totalPages ([] : List Unit)
        ≠ max 1 ⌈(((([] : List Unit).length : Nat) : ℚ)) / (rowsPerPage : ℚ)⌉ := by
  have hc : ⌈(((([] : List Unit).length : Nat) : ℚ)) / (rowsPerPage : ℚ)⌉
      = totalPages ([] : List Unit) := rfl
  rw [hc, totalPages_nil]
  exact ⟨rfl, by decide⟩

/-- C4: when `1 ≤ totalPages ≤ pageLimit`, for every `currentPage` (those of `[1, totalPages]`
among them: the position of `currentPage` plays no part) the window is `[1 .. totalPages]`,
neither ellipsis is rendered, and the rendering is the previous arrow, the number buttons
`1 .. totalPages` and the next arrow. -/
theorem small_dataset_window {α : Type} (tableData : List α) (currentPage : Int)
    (ht1 : 1 ≤ totalPages tableData) (ht : totalPages tableData ≤ pageLimit) :
    pageWindow tableData currentPage = { startPage := 1, endPage := totalPages tableData } ∧
      showsLeadingEllipsis tableData currentPage = false ∧
      showsTrailingEllipsis tableData currentPage = false ∧
      (renderPagination tableData currentPage).map (fun item => item.text)
        = [Label.laquo] ++ (pageNumbers 1 (totalPages tableData)).map Label.num
            ++ [Label.raquo] := by
  unfold pageLimit at ht
  have hw : pageWindow tableData currentPage
      = { startPage := 1, endPage := totalPages tableData } := by
    by_cases h : totalPages tableData < max 1 (currentPage - 5) + 9
    · rw [pageWindow_clamped tableData currentPage h]
      congr 1
      omega
    · rw [pageWindow_free tableData currentPage (by omega)]
      congr 1 <;> omega
  have hl : showsLeadingEllipsis tableData currentPage = false := by
    rw [← Bool.not_eq_true, showsLeadingEllipsis_iff, hw]
    simp
  have hr : showsTrailingEllipsis tableData currentPage = false := by
    rw [← Bool.not_eq_true, showsTrailingEllipsis_iff, hw]
    simp
  refine ⟨hw, hl, hr, ?_⟩
  unfold renderPagination
  simp only [hw, leadingItems, trailingItems, numberItems]
  simp

theorem small_dataset_window_witness :
    (pageWindow (List.replicate 47 ()) 1 = { startPage := 1, endPage := 10 } ∧
        showsLeadingEllipsis (List.replicate 47 ()) 1 = false ∧
        showsTrailingEllipsis (List.replicate 47 ()) 1 = false) ∧
      (pageWindow (List.replicate 47 ()) 10 = { startPage := 1, endPage := 10 } ∧
        showsLeadingEllipsis (List.replicate 47 ()) 10 = false ∧
        showsTrailingEllipsis (List.replicate 47 ()) 10 = false) := by
  have ht : totalPages (List.replicate 47 ()) = 10 := by
    rw [totalPages_replicate]
    rfl
  have h1 : 1 ≤ totalPages (List.replicate 47 ()) := by
    rw [ht]
    decide
  have h2 : totalPages (List.replicate 47 ()) ≤ pageLimit := by
    rw [ht]
    decide
  have a := small_dataset_window (List.replicate 47 ()) 1 h1 h2
  have b := small_dataset_window (List.replicate 47 ()) 10 h1 h2
  rw [ht] at a b
  exact ⟨⟨a.1, a.2.1, a.2.2.1⟩, ⟨b.1, b.2.1, b.2.2.1⟩⟩

/-- C5: when `currentPage - floor(pageLimit / 2) ≥ 1` and
`currentPage - floor(pageLimit / 2) + pageLimit - 1 ≤ totalPages`, the branch that re-derives
`startPage` is not taken and the window is `[currentPage - 5 .. currentPage + 4]`; when moreover
`currentPage - 5 > 1` and `currentPage + 4 < totalPages`, both ellipses are rendered: the output
of `renderPagination` is the previous arrow, the button `1`, an ellipsis, the buttons
`currentPage - 5 .. currentPage + 4`, an ellipsis, the button `totalPages` and the next arrow. -/
theorem centred_window {α : Type} (tableData : List α) (currentPage : Int)
    (h1 : 1 ≤ currentPage - pageLimit / 2)
    (h2 : currentPage - pageLimit / 2 + pageLimit - 1 ≤ totalPages tableData) :
    clamped tableData currentPage = false ∧
      pageWindow tableData currentPage
        = { startPage := currentPage - 5, endPage := currentPage + 4 } ∧
      (1 < currentPage - 5 → currentPage + 4 < totalPages tableData →
        (renderPagination tableData currentPage).map (fun item => item.text)
            = [Label.laquo, Label.num 1, Label.dots]
                ++ (pageNumbers (currentPage - 5) (currentPage + 4)).map Label.num
                ++ [Label.dots, Label.num (totalPages tableData), Label.raquo] ∧
          ((renderPagination tableData currentPage).filter
            (fun item => decide (item.text = Label.dots))).length = 2 ∧
          showsLeadingEllipsis tableData currentPage = true ∧
          showsTrailingEllipsis tableData currentPage = true) := by
  unfold pageLimit at h1 h2
  have hw : pageWindow tableData currentPage
      = { startPage := currentPage - 5, endPage := currentPage + 4 } := by
    rw [pageWindow_free tableData currentPage (by omega)]
    congr 1 <;> omega
  refine ⟨?_, hw, ?_⟩
  · unfold clamped
    rw [firstEnd_eq]
    exact decide_eq_false (by omega)
  · intro h3 h4
    have h3b : (2 : Int) ≤ currentPage - 5 := by omega
    have h4b : currentPage + 4 ≤ totalPages tableData - 1 := by omega
    refine ⟨?_, ?_, ?_, ?_⟩
    · rw [texts_renderPagination, hw]
      simp only
      rw [if_pos h3b, if_pos h4b]
      simp
    · rw [count_dots_renderPagination, hw]
      simp only
      rw [if_pos h3b, if_pos h4b]
    · rw [showsLeadingEllipsis_iff, hw]
      exact h3
    · rw [showsTrailingEllipsis_iff, hw]
      exact h4

theorem centred_window_witness :
    totalPages (List.replicate 200 ()) = 40 ∧
      clamped (List.replicate 200 ()) 20 = false ∧
      pageWindow (List.replicate 200 ()) 20 = { startPage := 15, endPage := 24 } ∧
      (renderPagination (List.replicate 200 ()) 20).map (fun item => item.text)
        = [Label.laquo, Label.num 1, Label.dots, Label.num 15, Label.num 16, Label.num 17,
            Label.num 18, Label.num 19, Label.num 20, Label.num 21, Label.num 22, Label.num 23,
            Label.num 24, Label.dots, Label.num 40, Label.raquo] := by
  have ht : totalPages (List.replicate 200 ()) = 40 := by
    rw [totalPages_replicate]
    rfl
  have h2 : (20 : Int) - pageLimit / 2 + pageLimit - 1 ≤ totalPages (List.replicate 200 ()) := by
    rw [ht]
    decide
  have h4 : (20 : Int) + 4 < totalPages (List.replicate 200 ()) := by
    rw [ht]
    decide
  have a := centred_window (List.replicate 200 ()) 20 (by decide) h2
  have b := (a.2.2 (by decide) h4).1
  rw [ht] at b
  exact ⟨ht, a.1, a.2.1, b⟩

/-- C6, as the code has it: for an empty dataset with `currentPage = 1` the code computes
`totalPages = 0`, `startPage = 1` and `endPage = 0`; no number button is rendered, no ellipsis at
either end, only the two arrows (the previous one disabled, the next one not). -/
theorem empty_dataset_render {α : Type} :
    totalPages ([] : List α) = 0 ∧
      pageWindow ([] : List α) 1 = { startPage := 1, endPage := 0 } ∧
      numberItems (pageWindow ([] : List α) 1) 1 = [] ∧
      showsLeadingEllipsis ([] : List α) 1 = false ∧
      showsTrailingEllipsis ([] : List α) 1 = false ∧
      renderPagination ([] : List α) 1
        = [{ text := Label.laquo, disabled := true, active := false },
           { text := Label.raquo, disabled := false, active := false }] := by
  have hw : pageWindow ([] : List α) 1 = { startPage := 1, endPage := 0 } := by
    rw [pageWindow_clamped ([] : List α) 1 (by rw [totalPages_nil]; decide), totalPages_nil]
    rfl
  have hl : showsLeadingEllipsis ([] : List α) 1 = false := by
    rw [← Bool.not_eq_true, showsLeadingEllipsis_iff, hw]
    simp
  have hr : showsTrailingEllipsis ([] : List α) 1 = false := by
    rw [← Bool.not_eq_true, showsTrailingEllipsis_iff, hw, totalPages_nil]
    simp
  refine ⟨totalPages_nil, hw, ?_, hl, hr, ?_⟩
  · rw [hw]
    rfl
  · unfold renderPagination
    simp only [hw, totalPages_nil]
    rfl

/-- C6 fails: for the empty dataset the code computes `totalPages = 0` and the window
`startPage = 1`, `endPage = 0`, with no number button, not `totalPages = 1` and `[1 .. 1]`. -/
theorem empty_dataset_not_one_page :
    ¬ (totalPages ([] : List Unit) = 1 ∧
        pageWindow ([] : List Unit) 1 = { startPage := 1, endPage := 1 } ∧
        (numberItems (pageWindow ([] : List Unit) 1) 1).map (fun item => item.text)
          = [Label.num 1]) := by
  rintro ⟨h, _, _⟩
  rw [totalPages_nil] at h
  exact absurd h (by decide)

/-- C8, as the code has it: in the output of `renderPagination` the leading ellipsis (after the
button `1`, in front of the window) is present exactly when `startPage ≥ 2`, which is exactly when
`currentPage ≥ 7` and `totalPages ≥ 11`, and the trailing ellipsis (behind the window, in front of
the button `totalPages`) exactly when `endPage ≤ totalPages - 1`, which is exactly when
`max 1 (currentPage - 5) + 9 < totalPages`; the output holds no other ellipsis.  No page need lie
strictly between the window and the first or last page. -/
theorem ellipsis_rendered_iff {α : Type} (tableData : List α) (currentPage : Int) :
    (renderPagination tableData currentPage).map (fun item => item.text)
        = [Label.laquo]
            ++ (if 2 ≤ (pageWindow tableData currentPage).startPage
                  then [Label.num 1, Label.dots] else [])
            ++ (pageNumbers (pageWindow tableData currentPage).startPage
                  (pageWindow tableData currentPage).endPage).map Label.num
            ++ (if (pageWindow tableData currentPage).endPage ≤ totalPages tableData - 1
                  then [Label.dots, Label.num (totalPages tableData)] else [])
            ++ [Label.raquo] ∧
      ((renderPagination tableData currentPage).filter
          (fun item => decide (item.text = Label.dots))).length
        = (if 2 ≤ (pageWindow tableData currentPage).startPage then 1 else 0)
            + (if (pageWindow tableData currentPage).endPage ≤ totalPages tableData - 1
                then 1 else 0) ∧
      (2 ≤ (pageWindow tableData currentPage).startPage ↔
        7 ≤ currentPage ∧ 11 ≤ totalPages tableData) ∧
      ((pageWindow tableData currentPage).endPage ≤ totalPages tableData - 1 ↔
        max 1 (currentPage - 5) + 9 < totalPages tableData) := by
  refine ⟨texts_renderPagination tableData currentPage,
    count_dots_renderPagination tableData currentPage, ?_, ?_⟩
  · rcases pageWindow_cases tableData currentPage with ⟨hc, hw⟩ | ⟨hc, hw⟩ <;>
      rw [hw] <;> simp only <;> constructor <;> intro h <;> omega
  · rcases pageWindow_cases tableData currentPage with ⟨hc, hw⟩ | ⟨hc, hw⟩ <;>
      rw [hw] <;> simp only <;> constructor <;> intro h <;> omega

/-- C8 fails: with 200 rows (40 pages), at `currentPage = 7` the output of `renderPagination`
holds the leading ellipsis between the buttons `1` and `2` (`startPage = 2`), and at
`currentPage = 35` the trailing ellipsis between the buttons `39` and `40` (`endPage = 39`): no
page lies between the window and the first (last) page. -/
theorem ellipsis_without_gap :
    ((renderPagination (List.replicate 200 ()) 7).map (fun item => item.text)
          = [Label.laquo, Label.num 1, Label.dots, Label.num 2, Label.num 3, Label.num 4,
              Label.num 5, Label.num 6, Label.num 7, Label.num 8, Label.num 9, Label.num 10,
              Label.num 11, Label.dots, Label.num 40, Label.raquo] ∧
        ¬ (pageWindow (List.replicate 200 ()) 7).startPage > 2) ∧
      ((renderPagination (List.replicate 200 ()) 35).map (fun item => item.text)
          = [Label.laquo, Label.num 1, Label.dots, Label.num 30, Label.num 31, Label.num 32,
              Label.num 33, Label.num 34, Label.num 35, Label.num 36, Label.num 37,
              Label.num 38, Label.num 39, Label.dots, Label.num 40, Label.raquo] ∧
        ¬ (pageWindow (List.replicate 200 ()) 35).endPage
            < totalPages (List.replicate 200 ()) - 1) := by
  have ht : totalPages (List.replicate 200 ()) = 40 := by
    rw [totalPages_replicate]
    rfl
  have h7 : pageWindow (List.replicate 200 ()) 7 = { startPage := 2, endPage := 11 } := by
    rw [pageWindow_free (List.replicate 200 ()) 7 (by rw [ht]; decide)]
    rfl
  have h35 : pageWindow (List.replicate 200 ()) 35 = { startPage := 30, endPage := 39 } := by
    rw [pageWindow_free (List.replicate 200 ()) 35 (by rw [ht]; decide)]
    rfl
  refine ⟨⟨?_, ?_⟩, ⟨?_, ?_⟩⟩
  · unfold renderPagination
    rw [h7, ht]
    rfl
  · rw [h7]
    decide
  · unfold renderPagination
    rw [h35, ht]
    rfl
  · rw [h35, ht]
    decide

/-- C10: for every dataset and every `currentPage` in `[1, totalPages]`, the window satisfies
`1 ≤ startPage ≤ currentPage ≤ endPage ≤ totalPages`, and exactly one rendered item carries the
`active` class: the number button of `currentPage`. -/
theorem current_page_in_window {α : Type} (tableData : List α) (currentPage : Int)
    (h1 : 1 ≤ currentPage) (h2 : currentPage ≤ totalPages tableData) :
    (1 ≤ (pageWindow tableData currentPage).startPage ∧
        (pageWindow tableData currentPage).startPage ≤ currentPage ∧
        currentPage ≤ (pageWindow tableData currentPage).endPage ∧
        (pageWindow tableData currentPage).endPage ≤ totalPages tableData) ∧
      ((numberItems (pageWindow tableData currentPage) currentPage).filter
        (fun item => item.active)).length = 1 ∧
      ((renderPagination tableData currentPage).filter (fun item => item.active)).length = 1 := by
  have hb : 1 ≤ (pageWindow tableData currentPage).startPage ∧
      (pageWindow tableData currentPage).startPage ≤ currentPage ∧
      currentPage ≤ (pageWindow tableData currentPage).endPage ∧
      (pageWindow tableData currentPage).endPage ≤ totalPages tableData := by
    by_cases h : totalPages tableData < max 1 (currentPage - 5) + 9
    · rw [pageWindow_clamped tableData currentPage h]
      simp only
      omega
    · rw [pageWindow_free tableData currentPage (by omega)]
      simp only
      omega
  have hn : ((numberItems (pageWindow tableData currentPage) currentPage).filter
      (fun item => item.active)).length = 1 := by
    rw [filter_active_numberItems]
    exact List.count_eq_one_of_mem (nodup_pageNumbers _ _)
      ((mem_pageNumbers _ _ _).2 ⟨hb.2.1, hb.2.2.1⟩)
  refine ⟨hb, hn, ?_⟩
  unfold renderPagination
  simp only [List.filter_append, List.length_append, hn]
  unfold leadingItems trailingItems
  split_ifs <;> simp

theorem current_page_in_window_witness :
    (1 : Int) ≤ 20 ∧ (20 : Int) ≤ totalPages (List.replicate 200 ()) ∧
      ((renderPagination (List.replicate 200 ()) 20).filter (fun item => item.active)).length
        = 1 := by
  have h2 : (20 : Int) ≤ totalPages (List.replicate 200 ()) := by
    rw [totalPages_replicate]
    decide
  exact ⟨by decide, h2,
    (current_page_in_window (List.replicate 200 ()) 20 (by decide) h2).2.2⟩

/-! ## The slices of `renderTable` -/

theorem sliceIndex_natCast (len k : Nat) : sliceIndex len (k : Int) = min k len := by
  unfold sliceIndex
  rw [if_neg (by omega)]
  omega

theorem pageData_succ {α : Type} (tableData : List α) (i : Nat) :
    pageData tableData ((i : Int) + 1) = (tableData.drop (5 * i)).take 5 := by
  unfold pageData slice rowsPerPage
  have e1 : ((i : Int) + 1 - 1) * ((5 : Nat) : Int) = ((5 * i : Nat) : Int) := by
    push_cast
    ring
  have e2 : ((5 * i : Nat) : Int) + ((5 : Nat) : Int) = ((5 * i + 5 : Nat) : Int) := by
    push_cast
    ring
  simp only [e1, e2, sliceIndex_natCast]
  by_cases h : tableData.length ≤ 5 * i
  · rw [List.drop_eq_nil_of_le (by omega), List.drop_eq_nil_of_le h]
    simp
  · have hk : min (5 * i) tableData.length = 5 * i := by omega
    rw [hk]
    by_cases h5 : 5 * i + 5 ≤ tableData.length
    · have : min (5 * i + 5) tableData.length - 5 * i = 5 := by omega
      rw [this]
    · rw [List.take_of_length_le, List.take_of_length_le]
      · rw [List.length_drop]
        omega
      · rw [List.length_drop]
        omega

theorem flatten_pages_take {α : Type} (tableData : List α) (m : Nat) :
    ((List.range m).map (fun (i : Nat) => pageData tableData ((i : Int) + 1))).flatten
      = tableData.take (5 * m) := by
  induction m with
  | zero => simp
  | succ m ih =>
    rw [List.range_succ, List.map_append, List.flatten_append, ih]
    have : 5 * (m + 1) = 5 * m + 5 := by ring
    rw [this, List.take_add]
    simp [pageData_succ]

/-- C9: the slices `renderTable` takes for the pages `1, ..., ceil(tableData.length / rowsPerPage)`,
concatenated in that order, are `tableData` itself, and each of them has at least 1 and at most
`rowsPerPage = 5` rows. -/
theorem pages_partition {α : Type} (tableData : List α) :
    (pages tableData).flatten = tableData ∧
      ∀ s ∈ pages tableData, 1 ≤ s.length ∧ s.length ≤ rowsPerPage := by
  have ht := totalPages_eq_natDiv tableData
  have hn : (totalPages tableData).toNat = (tableData.length + 4) / 5 := by
    rw [ht]
    rfl
  constructor
  · unfold pages
    rw [flatten_pages_take, hn]
    exact List.take_of_length_le (by omega)
  · intro s hs
    unfold pages at hs
    rw [List.mem_map] at hs
    obtain ⟨i, hi, rfl⟩ := hs
    rw [List.mem_range, hn] at hi
    rw [pageData_succ, List.length_take, List.length_drop]
    unfold rowsPerPage
    omega


theorem pages_witness :
    [6, 7] ∈ pages [1, 2, 3, 4, 5, 6, 7] ∧ 1 ≤ [6, 7].length ∧ [6, 7].length ≤ rowsPerPage := by
  have hm : [6, 7] ∈ pages [1, 2, 3, 4, 5, 6, 7] := by
    rw [pages, totalPages_eq_natDiv]
    decide
  exact ⟨hm, (pages_partition [1, 2, 3, 4, 5, 6, 7]).2 [6, 7] hm⟩

/-! ## The click handler keeps the page in range -/

theorem inRange_iff {α : Type} (tableData : List α) (currentPage : Int) :
    InRange tableData currentPage ↔
      (totalPages tableData = 0 ∧ currentPage = 1) ∨
        (1 ≤ currentPage ∧ currentPage ≤ totalPages tableData) := by
  have hc : ⌈((tableData.length : ℚ)) / (rowsPerPage : ℚ)⌉ = totalPages tableData := rfl
  unfold InRange
  rw [hc]
  have ht := totalPages_eq_natDiv tableData
  by_cases h : tableData.length = 0
  · rw [if_pos h]
    constructor
    · intro h1
      left
      exact ⟨by omega, h1⟩
    · rintro (⟨_, h1⟩ | ⟨h1, h2⟩)
      · exact h1
      · omega
  · rw [if_neg h]
    constructor
    · intro h1
      exact Or.inr h1
    · rintro (⟨h0, _⟩ | h1)
      · omega
      · exact h1

theorem text_of_mem_renderPagination {α : Type} (tableData : List α) (currentPage : Int)
    (item : PageItem) (h : item ∈ renderPagination tableData currentPage) :
    item.text = Label.laquo ∨ item.text = Label.raquo ∨ item.text = Label.dots ∨
      (item.text = Label.num 1 ∧ 1 < (pageWindow tableData currentPage).startPage) ∨
      (∃ i, item.text = Label.num i ∧ (pageWindow tableData currentPage).startPage ≤ i ∧
        i ≤ (pageWindow tableData currentPage).endPage) ∨
      (item.text = Label.num (totalPages tableData) ∧
        (pageWindow tableData currentPage).endPage < totalPages tableData) := by
  unfold renderPagination at h
  simp only [List.mem_append, List.mem_singleton] at h
  rcases h with (((h | h) | h) | h) | h
  · left
    rw [h]
  · unfold leadingItems at h
    split_ifs at h with hs
    · simp only [List.mem_cons, List.mem_singleton, List.not_mem_nil, or_false] at h
      rcases h with h | h
      · right; right; right; left
        exact ⟨by rw [h], hs⟩
      · right; right; left
        rw [h]
    · simp at h
  · unfold numberItems at h
    rw [List.mem_map] at h
    obtain ⟨i, hi, rfl⟩ := h
    rw [mem_pageNumbers] at hi
    right; right; right; right; left
    exact ⟨i, rfl, hi⟩
  · unfold trailingItems at h
    split_ifs at h with hs
    · simp only [List.mem_cons, List.mem_singleton, List.not_mem_nil, or_false] at h
      rcases h with h | h
      · right; right; left
        rw [h]
      · right; right; right; right; right
        exact ⟨by rw [h], hs⟩
    · simp at h
  · right; left
    rw [h]

theorem clickAt_inRange {α : Type} (tableData : List α) (currentPage : Int) (idx : Nat)
    (h : InRange tableData currentPage) : InRange tableData (clickAt tableData currentPage idx) := by
  unfold clickAt
  cases hg : (renderPagination tableData currentPage).get? idx with
  | none => exact h
  | some item =>
    have hm := text_of_mem_renderPagination tableData currentPage item (List.get?_mem hg)
    rw [inRange_iff] at h ⊢
    have ht := totalPages_nonneg tableData
    simp only
    rcases hm with hm | hm | hm | ⟨hm, hs⟩ | ⟨i, hm, hs, he⟩ | ⟨hm, hs⟩
    · rw [hm]
      unfold click
      by_cases hc : currentPage > 1
      · simp [hc]
        omega
      · simp [hc, Label.toNumber]
        exact h
    · rw [hm]
      unfold click
      by_cases hc : currentPage < totalPages tableData
      · simp [hc]
        omega
      · simp [hc, Label.toNumber]
        exact h
    · rw [hm]
      simp [click, Label.toNumber]
      exact h
    · rw [hm]
      simp [click, Label.toNumber]
      rcases pageWindow_cases tableData currentPage with ⟨hc, hw⟩ | ⟨hc, hw⟩ <;>
        rw [hw] at hs <;> simp only at hs <;> omega
    · rw [hm]
      simp [click, Label.toNumber]
      rcases pageWindow_cases tableData currentPage with ⟨hc, hw⟩ | ⟨hc, hw⟩ <;>
        rw [hw] at hs he <;> simp only at hs he <;> omega
    · rw [hm]
      simp [click, Label.toNumber]
      rcases pageWindow_cases tableData currentPage with ⟨hc, hw⟩ | ⟨hc, hw⟩ <;>
        rw [hw] at hs <;> simp only at hs <;> omega

theorem foldl_clickAt_inRange {α : Type} (tableData : List α) (clicks : List Nat)
    (start : Int) (h : InRange tableData start) :
    InRange tableData (clicks.foldl (clickAt tableData) start) := by
  induction clicks generalizing start with
  | nil => exact h
  | cons idx rest ih => exact ih _ (clickAt_inRange tableData start idx h)

/-- C3: from the initial `currentPage = 1`, for a fixed dataset, after every sequence of clicks on
rendered controls (arrows, number buttons, first-page and last-page buttons, ellipsis spans)
`currentPage` is in `[1, ceil(totalItems / pageSize)]`, or is `1` when the dataset is empty. -/
theorem currentPage_stays_in_range {α : Type} (tableData : List α) (clicks : List Nat) :
    InRange tableData (run tableData clicks) := by
  unfold run
  apply foldl_clickAt_inRange
  rw [inRange_iff]
  have ht := totalPages_nonneg tableData
  unfold initialPage
  omega

end Pagination
